import Mathlib

/-!
Verification of the Virtual Academic Advisor requirement-audit engine.

This file gives a shallow embedding of `engine/loader.py`, `engine/model.py`
and `engine/audit.py` and proves the specified properties about the
normalization heuristics and the audit algorithm.

Python dynamic values (everything `json.load` can produce) are modelled by
the inductive type `JVal`; Python exceptions are modelled by `Except PyErr`.
Machine-level caveats of the modelling: Python `str.upper` is modelled as
ASCII uppercasing, `float` conversion of decimal digit strings is modelled
exactly (no IEEE rounding), and `str()` of a float is modelled by a decimal
expansion truncated at ten digits.  None of the proved statements depend on
inputs where these differ from CPython.
-/

namespace Advisor

/-- Python whitespace characters, as used by `str.strip` and the regex
class backslash-s. -/
def pyIsSpace (c : Char) : Bool :=
  c = ' ' || c = '\t' || c = '\n' || c = '\x0d' || c = '\x0b' || c = '\x0c'

/-- Model of Python `str.strip()`: drop leading and trailing whitespace. -/
def pyStrip (s : String) : String :=
  String.mk (((s.data.dropWhile pyIsSpace).reverse.dropWhile pyIsSpace).reverse)

/-- Model of Python `str.upper()` (ASCII). -/
def pyUpper (s : String) : String := String.mk (s.data.map Char.toUpper)

/-- Numeric value of a run of decimal digit characters. -/
def natOfDigits (ds : List Char) : Nat :=
  ds.foldl (fun a c => a * 10 + (c.toNat - 48)) 0

/-- Dynamic values: everything Python's `json.load` can produce. -/
inductive JVal where
  | null : JVal
  | bool (b : Bool) : JVal
  | num (q : Rat) : JVal
  | str (s : String) : JVal
  | arr (xs : List JVal) : JVal
  | obj (kvs : List (String × JVal)) : JVal

/-- Python truthiness of a dynamic value. -/
def pyTruthy : JVal → Bool
  | .null => false
  | .bool b => b
  | .num q => q != 0
  | .str s => s != ""
  | .arr xs => !xs.isEmpty
  | .obj kvs => !kvs.isEmpty

/-- Python `a or b` on dynamic values: the first operand when truthy,
otherwise the second. -/
def pyOr (a b : JVal) : JVal := if pyTruthy a then a else b

/-- `d.get(k)` on a dict: the bound value, `None` when the key is absent. -/
def objGet (kvs : List (String × JVal)) (k : String) : JVal :=
  match kvs with
  | [] => .null
  | (k0, v) :: rest => if k0 = k then v else objGet rest k

/-- `d.get(k, dflt)` on a dict. -/
def objGetD (kvs : List (String × JVal)) (k : String) (dflt : JVal) : JVal :=
  match kvs with
  | [] => dflt
  | (k0, v) :: rest => if k0 = k then v else objGetD rest k dflt

/-- Whether a dynamic value is numeric (`isinstance(raw, (int, float))`
excluding `bool`, which `JVal` keeps as its own constructor). -/
def jIsNum : JVal → Bool
  | .num _ => true
  | _ => false

/-- Python `int(float(x))` on a rational: truncation toward zero. -/
def ratTrunc (q : Rat) : Int := Int.tdiv q.num (Int.ofNat q.den)

/-- Decimal expansion of the fractional part `r / d`, truncated at `k`
digits and stopping at an exact remainder. -/
def fracDigits : Nat → Nat → Nat → List Char
  | _, _, 0 => []
  | r, d, k + 1 =>
    if r = 0 then []
    else Char.ofNat (48 + r * 10 / d) :: fracDigits (r * 10 % d) d k

/-- Model of Python `str()` of a number (decimal expansion truncated at ten
digits for non-integers). -/
def numRepr (q : Rat) : String :=
  if q.den = 1 then toString q.num
  else
    (if q.num < 0 then "-" else "") ++ toString (q.num.natAbs / q.den)
      ++ "." ++ String.mk (fracDigits (q.num.natAbs % q.den) q.den 10)

/-- The single-quote character, used by Python `repr` of strings. -/
def quoteChar : Char := Char.ofNat 39

/-- Left and right curly-brace characters, used by Python `repr` of dicts. -/
def lbraceChar : Char := Char.ofNat 123

/-- Right curly brace. -/
def rbraceChar : Char := Char.ofNat 125

mutual

/-- Model of Python `repr` of a dynamic value (string escaping is not
modelled: nested strings are always rendered between single quotes). -/
def pyRepr : JVal → String
  | .null => "None"
  | .bool true => "True"
  | .bool false => "False"
  | .num q => numRepr q
  | .str s => String.mk (quoteChar :: s.data) ++ String.mk [quoteChar]
  | .arr xs => "[" ++ pyReprList xs ++ "]"
  | .obj kvs => String.mk [lbraceChar] ++ pyReprObj kvs ++ String.mk [rbraceChar]

/-- Comma-separated `repr` of list elements. -/
def pyReprList : List JVal → String
  | [] => ""
  | [x] => pyRepr x
  | x :: xs => pyRepr x ++ ", " ++ pyReprList xs

/-- Comma-separated `repr` of dict entries. -/
def pyReprObj : List (String × JVal) → String
  | [] => ""
  | [(k, v)] => String.mk (quoteChar :: k.data) ++ String.mk [quoteChar] ++ ": " ++ pyRepr v
  | (k, v) :: kvs =>
    String.mk (quoteChar :: k.data) ++ String.mk [quoteChar] ++ ": " ++ pyRepr v
      ++ ", " ++ pyReprObj kvs

end

/-- Model of Python `str()` of a dynamic value: strings are returned as-is,
everything else through `repr`-like rendering. -/
def pyStr : JVal → String
  | .str s => s
  | v => pyRepr v

/-! ### Regex models

The three regexes of `engine/loader.py` are compiled to explicit
backtracking-free matchers.  Greedy quantifiers in these patterns are
deterministic (a shorter match of a digit or whitespace run always leaves a
character the continuation cannot accept); the only genuine backtracking
points — the optional range group of the credits pattern and the 4/3/2
letter count of the course-code pattern — are tried explicitly in the order
the Python engine tries them. -/

/-- Match `\d+(?:\.\d+)?` at the head of the input.  Returns the numeric
value of the leading digit run (which is `int(float(group))` for this group)
and the remainder of the input. -/
def matchNumber (cs : List Char) : Option (Nat × List Char) :=
  let ds := cs.takeWhile Char.isDigit
  let rest := cs.dropWhile Char.isDigit
  if ds.isEmpty then none
  else
    match rest with
    | '.' :: rest2 =>
      let fs := rest2.takeWhile Char.isDigit
      if fs.isEmpty then some (natOfDigits ds, rest)
      else some (natOfDigits ds, rest2.dropWhile Char.isDigit)
    | _ => some (natOfDigits ds, rest)

/-- Case-insensitive literal match of `pat` at the head of the input. -/
def matchCI : List Char → List Char → Bool
  | [], _ => true
  | _ :: _, [] => false
  | p :: ps, c :: cs => Char.toLower c = Char.toLower p && matchCI ps cs

/-- Match `\s+credits?` at the head of the input (the tail of the credits
pattern; the optional `s` constrains nothing further). -/
def creditsTailAt (cs : List Char) : Bool :=
  let r := cs.dropWhile pyIsSpace
  !(cs.takeWhile pyIsSpace).isEmpty && matchCI "credit".data r

/-- Match the optional range group `\s*-\s*\d+(?:\.\d+)?` at the head of
the input, returning the remainder on success. -/
def rangeTailAt (cs : List Char) : Option (List Char) :=
  match cs.dropWhile pyIsSpace with
  | '-' :: r2 =>
    match matchNumber (r2.dropWhile pyIsSpace) with
    | some (_, r4) => some r4
    | none => none
  | _ => none

/-- Attempt the full credits pattern
`(\d+(?:\.\d+)?)(?:\s*-\s*\d+(?:\.\d+)?)?\s+credits?` at one position,
returning `int(float(group(1)))` on success.  The optional range group is
tried greedily first, then dropped, as the regex engine does. -/
def creditsMatchAt (cs : List Char) : Option Nat :=
  match matchNumber cs with
  | none => none
  | some (n, rest) =>
    match rangeTailAt rest with
    | some rest2 =>
      if creditsTailAt rest2 then some n
      else if creditsTailAt rest then some n else none
    | none => if creditsTailAt rest then some n else none

/-- `_credits_re.search`: try the credits pattern at every position, left to
right. -/
def creditsSearch : List Char → Option Nat
  | [] => none
  | c :: cs =>
    match creditsMatchAt (c :: cs) with
    | some n => some n
    | none => creditsSearch cs

/-- `_numeric_re.search`: the first number anywhere in the input,
`(\d+(?:\.\d+)?)`; its `int(float(...))` value is the value of the first
maximal digit run. -/
def numericSearch (cs : List Char) : Option Nat :=
  let r := cs.dropWhile (fun c => !c.isDigit)
  if r.isEmpty then none else some (natOfDigits (r.takeWhile Char.isDigit))

/-- Attempt `[A-Za-z]{2,4}\s*\d{3}[A-Za-z]?` at one position with a fixed
letter count `k`, returning the matched characters. -/
def codeMatchK (k : Nat) (cs : List Char) : Option (List Char) :=
  let ls := cs.take k
  if ls.length = k && ls.all Char.isAlpha then
    let rest := cs.drop k
    let ws := rest.takeWhile pyIsSpace
    let r1 := rest.dropWhile pyIsSpace
    let ds := r1.take 3
    if ds.length = 3 && ds.all Char.isDigit then
      match r1.drop 3 with
      | c :: _ => if c.isAlpha then some (ls ++ ws ++ ds ++ [c]) else some (ls ++ ws ++ ds)
      | [] => some (ls ++ ws ++ ds)
    else none
  else none

/-- Attempt the course-code pattern at one position: the greedy letter
count 4 is tried first, then 3, then 2. -/
def codeMatchAt (cs : List Char) : Option (List Char) :=
  match codeMatchK 4 cs with
  | some m => some m
  | none =>
    match codeMatchK 3 cs with
    | some m => some m
    | none => codeMatchK 2 cs

/-- `_course_code_re.search`: try the course-code pattern at every
position, left to right. -/
def codeSearch : List Char → Option (List Char)
  | [] => none
  | c :: cs =>
    match codeMatchAt (c :: cs) with
    | some m => some m
    | none => codeSearch cs

/-- Attempt the anchored pattern of `_extract_name`,
`^[A-Za-z]{2,4}\s*\d{3}[A-Za-z]?\s*[:\-–]\s*`, with a fixed letter count
`k`; returns the remainder after the match. -/
def leadCodeK (k : Nat) (cs : List Char) : Option (List Char) :=
  let ls := cs.take k
  if ls.length = k && ls.all Char.isAlpha then
    let r1 := (cs.drop k).dropWhile pyIsSpace
    let ds := r1.take 3
    if ds.length = 3 && ds.all Char.isDigit then
      let r2 :=
        match r1.drop 3 with
        | c :: r3 => if c.isAlpha then r3 else r1.drop 3
        | [] => []
      match r2.dropWhile pyIsSpace with
      | c :: r4 =>
        if c = ':' || c = '-' || c = '–' then some (r4.dropWhile pyIsSpace) else none
      | [] => none
    else none
  else none

/-- `re.sub` of the anchored leading-code pattern by the empty string: when
the pattern matches at the start (letter counts tried 4, 3, 2) the match is
removed, otherwise the input is unchanged. -/
def removeLeadingCode (cs : List Char) : List Char :=
  match leadCodeK 4 cs with
  | some r => r
  | none =>
    match leadCodeK 3 cs with
    | some r => r
    | none =>
      match leadCodeK 2 cs with
      | some r => r
      | none => cs

/-- Match one separator of `_normalize_prereqs`'s split pattern
`\s*;\s*|\s*\.\s*|\s*,\s*or\s*|\s*,\s*and\s*|\s*,\s*` at the head of the
input, trying the alternatives in that order; returns the remainder after
the separator. -/
def matchSepCore (c : Char) (r2 : List Char) : Option (List Char) :=
  if c = ';' || c = '.' then some (r2.dropWhile pyIsSpace)
  else if c = ',' then
    if (r2.dropWhile pyIsSpace).take 2 = ['o', 'r'] then
      some (((r2.dropWhile pyIsSpace).drop 2).dropWhile pyIsSpace)
    else if (r2.dropWhile pyIsSpace).take 3 = ['a', 'n', 'd'] then
      some (((r2.dropWhile pyIsSpace).drop 3).dropWhile pyIsSpace)
    else some (r2.dropWhile pyIsSpace)
  else none

/-- Whole separator pattern: skip leading whitespace, then dispatch on the
required punctuation character. -/
def matchSep (cs : List Char) : Option (List Char) :=
  match cs.dropWhile pyIsSpace with
  | [] => none
  | c :: r2 => matchSepCore c r2

theorem dropWhile_length_le (p : Char → Bool) (l : List Char) :
    (l.dropWhile p).length ≤ l.length :=
  (List.dropWhile_sublist p).length_le

theorem matchSepCore_length {c : Char} {r2 rest : List Char}
    (h : matchSepCore c r2 = some rest) : rest.length ≤ r2.length := by
  have hdrop : ∀ n : Nat, (((r2.dropWhile pyIsSpace).drop n).dropWhile pyIsSpace).length
      ≤ r2.length := by
    intro n
    calc (((r2.dropWhile pyIsSpace).drop n).dropWhile pyIsSpace).length
        ≤ ((r2.dropWhile pyIsSpace).drop n).length := dropWhile_length_le _ _
      _ ≤ (r2.dropWhile pyIsSpace).length := by simp [List.length_drop]
      _ ≤ r2.length := dropWhile_length_le _ _
  unfold matchSepCore at h
  split at h
  · cases h
    exact dropWhile_length_le _ _
  · split at h
    · split at h
      · cases h
        exact hdrop 2
      · split at h
        · cases h
          exact hdrop 3
        · cases h
          exact dropWhile_length_le _ _
    · exact absurd h (by simp)

/-- A successful separator match consumes at least one character. -/
theorem matchSep_length {cs rest : List Char} (h : matchSep cs = some rest) :
    rest.length < cs.length := by
  unfold matchSep at h
  cases h1 : cs.dropWhile pyIsSpace with
  | nil => rw [h1] at h; exact absurd h (by simp)
  | cons c r2 =>
    rw [h1] at h
    have hr2 : r2.length < cs.length := by
      have := dropWhile_length_le pyIsSpace cs
      rw [h1] at this; simp at this; omega
    exact Nat.lt_of_le_of_lt (matchSepCore_length h) hr2

/-- `re.split` of the prerequisite separator pattern: scan left to right,
cutting a piece at every position where a separator matches.  The
recursion is driven by a fuel parameter so that the definition reduces in
the kernel; by `matchSep_length` every step consumes at least one input
character, so a fuel equal to the input length (as `splitPrereqText`
passes) never runs out. -/
def splitLoop : Nat → List Char → List Char → List (List Char)
  | _, acc, [] => [acc]
  | 0, acc, cs => [acc ++ cs]
  | fuel + 1, acc, c :: cs' =>
    match matchSep (c :: cs') with
    | some rest => acc :: splitLoop fuel [] rest
    | none => splitLoop fuel (acc ++ [c]) cs'

/-- The pieces produced by splitting a string at the prerequisite
separators. -/
def splitPrereqText (s : String) : List String :=
  (splitLoop s.data.length [] s.data).map String.mk

/-! ### The normalizer functions of `engine/loader.py` -/

/-- The string-to-integer path of `_parse_credits`: strip, try the credits
phrase pattern, fall back to the first number anywhere, else 0.  Always a
natural number because the regexes match unsigned digit runs. -/
def parseCreditsStr (s : String) : Nat :=
  let t := pyStrip s
  if t = "" then 0
  else
    match creditsSearch t.data with
    | some n => n
    | none =>
      match numericSearch t.data with
      | some n => n
      | none => 0

/-- `_parse_credits`: normalize a raw credits value to an integer, 0 when
unknown.  `None` gives 0; numeric values (including Python `bool`, an
`int` subtype) are truncated toward zero; everything else goes through
`str(raw)` and the regex heuristics. -/
def _parse_credits : JVal → Int
  | .null => 0
  | .num q => ratTrunc q
  | .bool b => if b then 1 else 0
  | v => Int.ofNat (parseCreditsStr (pyStr v))

/-- The title branch of `_extract_code`: search the title for the course
code pattern, falling back to the trimmed uppercased title. -/
def extractFromTitle : Option String → String
  | none => ""
  | some t =>
    if t = "" then ""
    else
      match codeSearch t.data with
      | some m => pyUpper (String.mk m)
      | none => pyUpper (pyStrip t)

/-- `_extract_code(raw_code, title)` on its annotated domain
(`Optional[str]` arguments): the trimmed uppercased `code` field when
truthy, otherwise the first course-code pattern in the title, otherwise the
trimmed uppercased title, otherwise the empty string. -/
def _extract_code (raw_code : Option String) (title : Option String) : String :=
  match raw_code with
  | some s => if s ≠ "" then pyUpper (pyStrip s) else extractFromTitle title
  | none => extractFromTitle title

/-- `_extract_name(title)`: remove a leading `<CODE>: ` / `<CODE> - `
pattern from the title and strip the remainder. -/
def _extract_name : Option String → String
  | none => ""
  | some t => if t = "" then "" else pyStrip (String.mk (removeLeadingCode t.data))

/-- The text path of `_normalize_prereqs` on the already-stripped string:
split at the separators, strip the pieces and drop blanks, and keep the
original string as a single-element list when nothing usable remains. -/
def normPrereqText (s : String) : List String :=
  let parts := ((splitPrereqText s).map pyStrip).filter (fun p => p ≠ "")
  if parts.isEmpty then [s] else parts

/-- `_normalize_prereqs(raw)`: a falsy value gives `[]`; a list is
stringified and trimmed with blank entries dropped; any other value is
stringified, stripped and split at the separator pattern, keeping the
stripped original as a single-element list when the split yields nothing
usable. -/
def _normalize_prereqs (raw : JVal) : List String :=
  if !pyTruthy raw then []
  else
    match raw with
    | .arr xs => (xs.map fun x => pyStrip (pyStr x)).filter (fun e => e ≠ "")
    | v => normPrereqText (pyStrip (pyStr v))

/-! ### The data model of `engine/model.py`

Fields whose runtime values are unconstrained dynamic data in the Python
code are typed `JVal`; fields the loader always fills with the stated type
keep that type. -/

/-- A catalog course (`engine/model.py`, `Course`). -/
structure Course where
  code : String
  name : JVal
  credits : Int
  description : JVal := .null
  prerequisites : List String := []
  semester_offered : JVal := .null
  attributes : JVal := .arr []

/-- One rule inside a requirement block (`engine/model.py`,
`Requirement`). -/
structure Requirement where
  name : String
  credits : Int
  options : Option (List String) := none
  allowed_prefixes : Option (List String) := none
  exclusions : JVal := .null
  prerequisites : JVal := .null
  filter : JVal := .null
  notes : JVal := .null

/-- A named group of requirements (`engine/model.py`,
`RequirementBlock`). -/
structure RequirementBlock where
  name : String
  requirements : List Requirement

/-- Student input (`engine/model.py`, `StudentProfile`). -/
structure StudentProfile where
  catalog_year : String
  courses_done : List String := []
  remaining_terms : Int := 8
  target_hours : Int := 16
  max_hours : Int := 19
  gpa : Option Rat := none
  emphasis : Option String := none

/-- The per-block slice of the audit report (`block_status` in
`engine/audit.py`). -/
structure BlockStatus where
  completed : List String
  missing : List String
  credits_required : Int
  credits_done : Int

/-- The audit report returned by `audit_student`. -/
structure AuditReport where
  catalog_year : String
  credits_done : Int
  credits_required : JVal
  blocks : List (String × BlockStatus)

/-! ### The loader functions of `engine/loader.py`

File contents are modelled by `SourceFile` (`json.load` itself is stdlib,
not repository code, so a file is either absent, unreadable/unparsable, or
a parsed dynamic value).  Python exceptions escaping a function are
modelled by `Except PyErr`. -/

/-- Python exception classes that can escape the loader. -/
inductive PyErr where
  | attributeError : PyErr
  | typeError : PyErr
  | valueError : PyErr

/-- A catalog source file as the loader can encounter it. -/
inductive SourceFile where
  | missing : SourceFile
  | unreadable : SourceFile
  | parsed (v : JVal) : SourceFile

/-- `load_json`: `{}` when the file does not exist, `{}` when opening or
parsing raises, otherwise the parsed value. -/
def load_json : SourceFile → JVal
  | .missing => .obj []
  | .unreadable => .obj []
  | .parsed v => v

/-- Python `for x in v`: lists yield elements, dicts yield keys, strings
yield one-character strings; other values raise `TypeError`. -/
def pyIter : JVal → Except PyErr (List JVal)
  | .arr xs => .ok xs
  | .obj kvs => .ok (kvs.map fun kv => .str kv.1)
  | .str s => .ok (s.data.map fun c => .str (String.mk [c]))
  | _ => .error .typeError

/-- Calling a dict method (`.get`, `.items`) on a value: raises
`AttributeError` unless the value is a dict. -/
def asObj : JVal → Except PyErr (List (String × JVal))
  | .obj kvs => .ok kvs
  | _ => .error .attributeError

/-- `c.get("title") or c.get("name") or ""` (line 126 of the loader). -/
def titleField (fields : List (String × JVal)) : JVal :=
  pyOr (pyOr (objGet fields "title") (objGet fields "name")) (.str "")

/-- `_extract_code` as invoked on dynamic arguments: a truthy non-string
`code` field raises `AttributeError` at `.strip()`, a truthy non-string
title raises `TypeError` inside `re.search`; string arguments follow
`_extract_code`. -/
def dynCode (rc tf : JVal) : Except PyErr String :=
  if pyTruthy rc then
    match rc with
    | .str s => .ok (pyUpper (pyStrip s))
    | _ => .error .attributeError
  else
    if !pyTruthy tf then .ok ""
    else
      match tf with
      | .str t => .ok (extractFromTitle (some t))
      | _ => .error .typeError

/-- `_extract_name` as invoked on a dynamic title: falsy gives `""`, a
truthy non-string raises `TypeError` inside `re.sub`. -/
def dynExtractName (tf : JVal) : Except PyErr String :=
  if !pyTruthy tf then .ok ""
  else
    match tf with
    | .str t => .ok (_extract_name (some t))
    | _ => .error .typeError

/-- `c.get("name") or _extract_name(title_field) or title_field`
(line 131 of the loader). -/
def dynName (nRaw tf : JVal) : Except PyErr JVal :=
  if pyTruthy nRaw then .ok nRaw
  else do
    let en ← dynExtractName tf
    if en ≠ "" then pure (.str en) else pure tf

/-- `courses[code] = course`: replace an existing binding, else append. -/
def assocSet (l : List (String × Course)) (k : String) (v : Course) :
    List (String × Course) :=
  match l with
  | [] => [(k, v)]
  | (k0, v0) :: rest => if k0 = k then (k, v) :: rest else (k0, v0) :: assocSet rest k v

/-- `courses[code]` / `code in courses` on the catalog dict. -/
def assocGet (l : List (String × Course)) (k : String) : Option Course :=
  match l with
  | [] => none
  | (k0, v) :: rest => if k0 = k then some v else assocGet rest k

/-- Dict lookup on a dynamic-valued dict. -/
def assocGetJ (l : List (String × JVal)) (k : String) : Option JVal :=
  match l with
  | [] => none
  | (k0, v) :: rest => if k0 = k then some v else assocGetJ rest k

/-- The per-record loop body of `load_courses` (lines 123-144): records
whose resolved code is empty are skipped, the rest are normalized into
`Course` values and written into the catalog dict. -/
def loadCourseItems : List JVal → List (String × Course) →
    Except PyErr (List (String × Course))
  | [], acc => .ok acc
  | c :: rest, acc =>
    match asObj c with
    | .error e => .error e
    | .ok fields =>
      match dynCode (objGet fields "code") (titleField fields) with
      | .error e => .error e
      | .ok code =>
        if code = "" then loadCourseItems rest acc
        else
          match dynName (objGet fields "name") (titleField fields) with
          | .error e => .error e
          | .ok nameVal =>
            loadCourseItems rest (assocSet acc code
              { code := code
                name := nameVal
                credits := _parse_credits (objGet fields "credits")
                description := pyOr (objGet fields "description") (.str "")
                prerequisites := _normalize_prereqs (pyOr
                  (pyOr (objGet fields "prerequisites") (objGet fields "prereq"))
                  (objGet fields "prerequisite"))
                semester_offered := objGet fields "semester_offered"
                attributes := pyOr (objGet fields "attributes") (.arr []) })

/-- One iteration of the file loop of `load_courses` (lines 119-144):
falsy file contents are skipped (`if not raw: continue`), otherwise the
records are iterated and merged into the catalog dict. -/
def loadCourseFile (acc : List (String × Course)) (file : SourceFile) :
    Except PyErr (List (String × Course)) :=
  let raw := load_json file
  if !pyTruthy raw then pure acc
  else do
    let items ← pyIter raw
    loadCourseItems items acc

/-- `load_courses`: merge the records of all course files into one catalog
dict; later files overwrite earlier entries with the same code. -/
def load_courses (files : List SourceFile) : Except PyErr (List (String × Course)) :=
  files.foldlM loadCourseFile []

/-- Python `int(s)` on a string: optional sign then decimal digits after
stripping, else `ValueError`. -/
def pyIntStr (s : String) : Except PyErr Int :=
  let t := (pyStrip s).data
  match t with
  | '-' :: ds =>
    if !ds.isEmpty && ds.all Char.isDigit then .ok (-(Int.ofNat (natOfDigits ds)))
    else .error .valueError
  | '+' :: ds =>
    if !ds.isEmpty && ds.all Char.isDigit then .ok (Int.ofNat (natOfDigits ds))
    else .error .valueError
  | ds =>
    if !ds.isEmpty && ds.all Char.isDigit then .ok (Int.ofNat (natOfDigits ds))
    else .error .valueError

/-- `try: cred = int(r.get("credits") or 0) except Exception: cred = 0`
(lines 159-162): numerics truncate toward zero, numeric strings parse,
everything else degrades to 0. -/
def reqCredits (v : JVal) : Int :=
  match pyOr v (.num 0) with
  | .num q => ratTrunc q
  | .bool b => if b then 1 else 0
  | .str s =>
    match pyIntStr s with
    | .ok n => n
    | .error _ => 0
  | _ => 0

/-- Conversion of a loaded dynamic value to a string.  The Python code
stores the raw value and only fails later, inside `audit_student`, when a
non-string reaches `str` methods; this model rejects such values at load
time instead (no proved statement depends on the difference). -/
def jAsStr : JVal → Except PyErr String
  | .str s => .ok s
  | _ => .error .typeError

/-- Conversion of a loaded `options` / `allowed_prefixes` value to the
`Optional[List[str]]` declared in `engine/model.py`.  Falsy values behave
exactly like an absent field inside `audit_student`'s truthiness guards
and are mapped to `none`; truthy values that are not lists of strings
would make `audit_student` raise and are rejected at load time instead. -/
def jStrListOpt : JVal → Except PyErr (Option (List String))
  | .null => .ok none
  | .arr xs => do
    let ss ← xs.mapM jAsStr
    .ok (some ss)
  | v => if pyTruthy v then .error .typeError else .ok none

/-- The per-requirement loop body of `load_degree_requirements`
(lines 157-174). -/
def loadReqItems : List JVal → Except PyErr (List Requirement)
  | [] => .ok []
  | r :: rest => do
    let rf ← asObj r
    let nm ← jAsStr (pyOr (pyOr (objGet rf "name") (objGet rf "course")) (.str "Unnamed"))
    let opts ← jStrListOpt (objGet rf "options")
    let aps ← jStrListOpt (objGet rf "allowed_prefixes")
    let tail ← loadReqItems rest
    .ok ({ name := nm
           credits := reqCredits (objGet rf "credits")
           options := opts
           allowed_prefixes := aps
           exclusions := objGet rf "exclusions"
           prerequisites := objGet rf "prerequisites"
           filter := objGet rf "filter"
           notes := objGet rf "notes" } :: tail)

/-- The per-block loop body of `load_degree_requirements`
(lines 155-175). -/
def loadBlockItems : List (String × JVal) →
    Except PyErr (List (String × RequirementBlock))
  | [] => .ok []
  | (bn, bv) :: rest => do
    let bf ← asObj bv
    let items ← pyIter (objGetD bf "requirements" (.arr []))
    let reqs ← loadReqItems items
    let tail ← loadBlockItems rest
    .ok ((bn, { name := bn, requirements := reqs }) :: tail)

/-- `load_degree_requirements`: normalize the `blocks` mapping of the
degree-requirements file, degrading falsy file contents to an empty
mapping. -/
def load_degree_requirements (file : SourceFile) :
    Except PyErr (List (String × RequirementBlock)) := do
  let fields ← asObj (pyOr (load_json file) (.obj []))
  let bkvs ← asObj (pyOr (objGet fields "blocks") (.obj []))
  loadBlockItems bkvs

/-! ### The audit engine of `engine/audit.py`

`audit_student` in the source loads the catalog, blocks and policies
itself; the embedding takes those already-loaded structures as arguments
(the file I/O boundary).  The student's completed set (a Python `set`,
whose iteration order is implementation defined) is modelled as a
duplicate-free list; every statement about "iteration order" below is
relative to that list's order. -/

/-- Case 1 of the matcher (line 41): `req.options and any(opt.upper() in
completed for opt in req.options)`; an absent or empty `options` list is
falsy. -/
def optionsHit (completed : List String) (req : Requirement) : Bool :=
  match req.options with
  | some os => os.any (fun opt => completed.contains (pyUpper opt))
  | none => false

/-- Case 2 of the matcher (line 46): `any(req.name.upper() == code for
code in completed)`. -/
def nameHit (completed : List String) (req : Requirement) : Bool :=
  completed.any (fun code => pyUpper req.name == code)

/-- The match list of case 3 (line 52): completed codes starting with one
of the allowed prefixes, in completed-set iteration order; empty when
`allowed_prefixes` is absent or empty (a falsy guard). -/
def prefixMatches (completed : List String) (req : Requirement) : List String :=
  match req.allowed_prefixes with
  | some ps => completed.filter (fun c => ps.any (fun p => c.startsWith p))
  | none => []

/-- The per-requirement decision (lines 38-59): the entry appended to
`completed` when the requirement is satisfied, `none` when it goes to
`missing`. -/
def evalReq (completed : List String) (req : Requirement) : Option String :=
  if optionsHit completed req then some req.name
  else if nameHit completed req then some req.name
  else
    match prefixMatches completed req with
    | m :: _ => some (req.name ++ " (" ++ m ++ ")")
    | [] => none

/-- One iteration of the requirement loop (lines 37-63): append to exactly
one of the two lists and count credits when satisfied. -/
def auditStep (completed : List String) (st : BlockStatus) (req : Requirement) :
    BlockStatus :=
  match evalReq completed req with
  | some e => { st with completed := st.completed ++ [e],
                        credits_done := st.credits_done + req.credits }
  | none => { st with missing := st.missing ++ [req.name] }

/-- `sum(r.credits for r in block.requirements)` (line 33). -/
def sumCredits (rs : List Requirement) : Int := (rs.map Requirement.credits).sum

/-- The block evaluation (lines 30-63). -/
def auditBlock (completed : List String) (b : RequirementBlock) : BlockStatus :=
  b.requirements.foldl (auditStep completed)
    { completed := [], missing := []
      credits_required := sumCredits b.requirements, credits_done := 0 }

/-- `set(c.upper() for c in profile.courses_done)` (line 19). -/
def normalizeDone (profile : StudentProfile) : List String :=
  (profile.courses_done.map pyUpper).dedup

/-- The completed-credit loop (lines 24-26): total the catalog credits of
the completed codes found in the catalog. -/
def catalogCredits (courses : List (String × Course)) (completed : List String) : Int :=
  completed.foldl (fun t code =>
    match assocGet courses code with
    | some co => t + co.credits
    | none => t) 0

/-- `audit_student` (lines 10-73) over already-loaded data: per-block
results plus the two top-level credit totals. -/
def audit_student (profile : StudentProfile) (courses : List (String × Course))
    (degree_blocks : List (String × RequirementBlock))
    (policies : List (String × JVal)) : AuditReport :=
  let completed := normalizeDone profile
  { catalog_year := profile.catalog_year
    credits_done := catalogCredits courses completed
    credits_required := (assocGetJ policies "min_total_credits").getD (.num 127)
    blocks := degree_blocks.map (fun bb => (bb.1, auditBlock completed bb.2)) }

/-! ### Shared lemmas about the audit engine -/

/-- Closed form of the requirement loop: starting from any partial block
status, the loop appends the satisfied entries to `completed`, the
unsatisfied names to `missing`, counts the satisfied credits, and leaves
`credits_required` alone. -/
theorem foldl_auditStep (completed : List String) (rs : List Requirement)
    (st : BlockStatus) :
    rs.foldl (auditStep completed) st =
      { completed := st.completed ++ rs.filterMap (evalReq completed)
        missing := st.missing ++
          (rs.filter (fun r => (evalReq completed r).isNone)).map Requirement.name
        credits_required := st.credits_required
        credits_done := st.credits_done +
          sumCredits (rs.filter (fun r => (evalReq completed r).isSome)) } := by
  induction rs generalizing st with
  | nil => simp [sumCredits]
  | cons r rs ih =>
    simp only [List.foldl_cons]
    rw [ih]
    cases h : evalReq completed r <;>
      simp [auditStep, h, List.filterMap_cons, List.filter_cons, sumCredits, add_assoc]

/-- Each element lands in exactly one of the kept and dropped parts of a
`filterMap`. -/
theorem length_filterMap_add_length_filter {α β : Type} (f : α → Option β)
    (l : List α) :
    (l.filterMap f).length + (l.filter (fun a => (f a).isNone)).length = l.length := by
  induction l with
  | nil => simp
  | cons a l ih =>
    cases h : f a <;> simp [List.filterMap_cons, List.filter_cons, h] <;> omega

/-- Closed form of the completed-credit loop. -/
theorem catalogCredits_eq (courses : List (String × Course)) (completed : List String) :
    catalogCredits courses completed =
      (completed.filterMap (fun code => (assocGet courses code).map Course.credits)).sum := by
  have aux : ∀ (l : List String) (t : Int),
      l.foldl (fun t code =>
        match assocGet courses code with
        | some co => t + co.credits
        | none => t) t =
      t + (l.filterMap (fun code => (assocGet courses code).map Course.credits)).sum := by
    intro l
    induction l with
    | nil => simp
    | cons c l ih =>
      intro t
      cases h : assocGet courses c <;>
        simp [List.filterMap_cons, h, ih, add_assoc]
  simpa using aux completed 0

/-- Case-1 guard of the matcher, propositionally. -/
theorem optionsHit_iff (completed : List String) (req : Requirement) :
    optionsHit completed req = true ↔
      ∃ os, req.options = some os ∧ ∃ o ∈ os, pyUpper o ∈ completed := by
  cases h : req.options with
  | none => simp [optionsHit, h]
  | some os => simp [optionsHit, h, List.any_eq_true]

/-- Case-2 guard of the matcher, propositionally. -/
theorem nameHit_iff (completed : List String) (req : Requirement) :
    nameHit completed req = true ↔ pyUpper req.name ∈ completed := by
  simp [nameHit, List.any_eq_true]

/-- A filter returning `m :: ms` pins `m` down as the first element of the
list satisfying the predicate. -/
theorem filter_eq_cons_split {α : Type} (p : α → Bool) (l : List α) (m : α)
    (ms : List α) (h : l.filter p = m :: ms) :
    ∃ l1 l2, l = l1 ++ m :: l2 ∧ (∀ c ∈ l1, p c = false) ∧ p m = true := by
  induction l with
  | nil => simp at h
  | cons a l ih =>
    by_cases hp : p a
    · rw [List.filter_cons_of_pos hp] at h
      obtain rfl : a = m := (List.cons.inj h).1
      exact ⟨[], l, rfl, by simp, hp⟩
    · rw [List.filter_cons_of_neg hp] at h
      obtain ⟨l1, l2, rfl, h1, h2⟩ := ih h
      exact ⟨a :: l1, l2, rfl, by
        intro c hc
        rcases List.mem_cons.mp hc with rfl | hc
        · exact Bool.eq_false_iff.mpr hp
        · exact h1 c hc, h2⟩

/-- Closed form of a block evaluation. -/
theorem auditBlock_eq (completed : List String) (b : RequirementBlock) :
    auditBlock completed b =
      { completed := b.requirements.filterMap (evalReq completed)
        missing := (b.requirements.filter
          (fun r => (evalReq completed r).isNone)).map Requirement.name
        credits_required := sumCredits b.requirements
        credits_done := sumCredits (b.requirements.filter
          (fun r => (evalReq completed r).isSome)) } := by
  unfold auditBlock
  rw [foldl_auditStep]
  simp

/-! ### The claims -/

/-- C1: after the audit evaluates a block, the `completed` list holds
exactly the entries of the satisfied requirements in order, the `missing`
list exactly the names of the unsatisfied ones in order, and the two
lengths sum to the number of requirements of the block — each requirement
is recorded exactly once, in exactly one list.  The audit report's blocks
are exactly the per-block evaluations. -/
theorem audit_block_partition (completed : List String) (b : RequirementBlock) :
    (auditBlock completed b).completed = b.requirements.filterMap (evalReq completed)
    ∧ (auditBlock completed b).missing =
        (b.requirements.filter (fun r => (evalReq completed r).isNone)).map Requirement.name
    ∧ (auditBlock completed b).completed.length + (auditBlock completed b).missing.length
        = b.requirements.length
    ∧ ∀ (profile : StudentProfile) (courses : List (String × Course))
        (degree_blocks : List (String × RequirementBlock))
        (policies : List (String × JVal)),
        (audit_student profile courses degree_blocks policies).blocks =
          degree_blocks.map (fun bb => (bb.1, auditBlock (normalizeDone profile) bb.2)) := by
  rw [auditBlock_eq]
  refine ⟨rfl, rfl, ?_, fun _ _ _ _ => rfl⟩
  simpa [List.length_map] using
    length_filterMap_add_length_filter (evalReq completed) b.requirements

/-- C3: the reported per-block `credits_required` is the sum of the
declared credits of all requirements of the block, satisfied or not, and
`credits_done` is the sum of the credits of exactly the satisfied
requirements, each counted once. -/
theorem audit_block_credit_sums (completed : List String) (b : RequirementBlock) :
    (auditBlock completed b).credits_required = (b.requirements.map Requirement.credits).sum
    ∧ (auditBlock completed b).credits_done =
        ((b.requirements.filter
          (fun r => (evalReq completed r).isSome)).map Requirement.credits).sum := by
  rw [auditBlock_eq]
  exact ⟨rfl, rfl⟩

/-- C2: requirement satisfaction is decided by four strategies in strict
priority order with first match wins: a hit among the uppercased `options`
records the display name; otherwise an uppercased-name match against a
completed code records the name; otherwise a completed code starting with
a listed prefix records `name (code)` with the first matching code in
completed-set iteration order; otherwise the requirement is unsatisfied
(`evalReq` is `none`, which the block loop records under `missing`). -/
theorem audit_strategy_order (completed : List String) (req : Requirement) :
    ((∃ os, req.options = some os ∧ ∃ o ∈ os, pyUpper o ∈ completed) →
        evalReq completed req = some req.name)
    ∧ ((¬ ∃ os, req.options = some os ∧ ∃ o ∈ os, pyUpper o ∈ completed) →
        pyUpper req.name ∈ completed → evalReq completed req = some req.name)
    ∧ ((¬ ∃ os, req.options = some os ∧ ∃ o ∈ os, pyUpper o ∈ completed) →
        pyUpper req.name ∉ completed →
        ∀ m ms, prefixMatches completed req = m :: ms →
          evalReq completed req = some (req.name ++ " (" ++ m ++ ")")
          ∧ ∃ ps l1 l2, req.allowed_prefixes = some ps ∧ completed = l1 ++ m :: l2
              ∧ (∀ c ∈ l1, ∀ p ∈ ps, c.startsWith p = false)
              ∧ ∃ p ∈ ps, m.startsWith p = true)
    ∧ ((¬ ∃ os, req.options = some os ∧ ∃ o ∈ os, pyUpper o ∈ completed) →
        pyUpper req.name ∉ completed →
        prefixMatches completed req = [] → evalReq completed req = none) := by
  refine ⟨?_, ?_, ?_, ?_⟩
  · intro hs1
    have ho : optionsHit completed req = true := (optionsHit_iff completed req).mpr hs1
    simp [evalReq, ho]
  · intro hn1 hs2
    have ho : optionsHit completed req = false := by
      rw [← Bool.not_eq_true, optionsHit_iff]; exact hn1
    have hn : nameHit completed req = true := (nameHit_iff completed req).mpr hs2
    simp [evalReq, ho, hn]
  · intro hn1 hn2 m ms hpm
    have ho : optionsHit completed req = false := by
      rw [← Bool.not_eq_true, optionsHit_iff]; exact hn1
    have hnm : nameHit completed req = false := by
      rw [← Bool.not_eq_true, nameHit_iff]; exact hn2
    refine ⟨by simp [evalReq, ho, hnm, hpm], ?_⟩
    cases hap : req.allowed_prefixes with
    | none => rw [prefixMatches, hap] at hpm; cases hpm
    | some ps =>
      have hfme : prefixMatches completed req =
          completed.filter (fun c => ps.any (fun p => c.startsWith p)) := by
        simp [prefixMatches, hap]
      rw [hfme] at hpm
      obtain ⟨l1, l2, rfl, hl1, hm⟩ := filter_eq_cons_split _ _ _ _ hpm
      refine ⟨ps, l1, l2, rfl, rfl, ?_, ?_⟩
      · intro c hc p hp
        have := hl1 c hc
        rw [List.any_eq_false] at this
        simpa using this p hp
      · simpa [List.any_eq_true] using hm
  · intro hn1 hn2 hpm
    have ho : optionsHit completed req = false := by
      rw [← Bool.not_eq_true, optionsHit_iff]; exact hn1
    have hnm : nameHit completed req = false := by
      rw [← Bool.not_eq_true, nameHit_iff]; exact hn2
    simp [evalReq, ho, hnm, hpm]

/-- Witness for C2 on the spec's writing example: the completed course
`WRIT 101` satisfies the explicit-options strategy and the requirement is
recorded under its display name. -/
theorem audit_strategy_order_witness :
    evalReq ["WRIT 101"]
      { name := "First-Year Writing I", credits := 3
        options := some ["WRIT 100", "WRIT 101"] } = some "First-Year Writing I" :=
  (audit_strategy_order ["WRIT 101"]
    { name := "First-Year Writing I", credits := 3
      options := some ["WRIT 100", "WRIT 101"] }).1
    ⟨["WRIT 100", "WRIT 101"], rfl, "WRIT 101", by decide, by decide⟩

/-- C4: the top-level `credits_done` is the sum, over the distinct
uppercased completed codes found in the catalog, of those courses'
credits (absent codes contribute nothing, duplicates count once), and the
top-level `credits_required` is the `min_total_credits` policy value with
default 127; both are independent of the requirement blocks. -/
theorem audit_top_level_credits (profile : StudentProfile)
    (courses : List (String × Course))
    (degree_blocks : List (String × RequirementBlock))
    (policies : List (String × JVal)) :
    (audit_student profile courses degree_blocks policies).credits_done
      = (((profile.courses_done.map pyUpper).dedup).filterMap
          (fun code => (assocGet courses code).map Course.credits)).sum
    ∧ (audit_student profile courses degree_blocks policies).credits_required
      = (assocGetJ policies "min_total_credits").getD (JVal.num 127)
    ∧ (audit_student profile courses degree_blocks policies).credits_done
      = (audit_student profile courses [] policies).credits_done
    ∧ ∀ d ∈ profile.courses_done,
        (audit_student { profile with courses_done := d :: profile.courses_done }
          courses degree_blocks policies).credits_done
        = (audit_student profile courses degree_blocks policies).credits_done := by
  refine ⟨catalogCredits_eq courses (normalizeDone profile), rfl, rfl, ?_⟩
  intro d hd
  show catalogCredits courses
      (normalizeDone { profile with courses_done := d :: profile.courses_done })
    = catalogCredits courses (normalizeDone profile)
  have hdp : normalizeDone { profile with courses_done := d :: profile.courses_done }
      = normalizeDone profile := by
    unfold normalizeDone
    simp only [List.map_cons]
    exact List.dedup_cons_of_mem (List.mem_map_of_mem pyUpper hd)
  rw [hdp]

/-- Witness for C4: a duplicated completed course is counted once. -/
theorem audit_top_level_credits_witness :
    (audit_student
        { catalog_year := "2024-2025", courses_done := ["CSCI 111", "CSCI 111"] }
        [("CSCI 111", { code := "CSCI 111", name := .str "Computer Science I", credits := 3 })]
        [] []).credits_done
    = (audit_student { catalog_year := "2024-2025", courses_done := ["CSCI 111"] }
        [("CSCI 111", { code := "CSCI 111", name := .str "Computer Science I", credits := 3 })]
        [] []).credits_done :=
  (audit_top_level_credits { catalog_year := "2024-2025", courses_done := ["CSCI 111"] }
    [("CSCI 111", { code := "CSCI 111", name := .str "Computer Science I", credits := 3 })]
    [] []).2.2.2 "CSCI 111" (by decide)

/-- C5 counterexample: `_parse_credits` applied to the numeric value `-3`
returns `-3`, a negative integer, so the parser does not always return a
non-negative integer. -/
theorem parse_credits_negative_cex :
    _parse_credits (.num (-3)) = -3 ∧ _parse_credits (.num (-3)) < 0 := by
  constructor <;> decide

/-- C5 amended: credit parsing never raises and always returns an
integer; every non-numeric input yields a non-negative integer, while a
numeric value is truncated toward zero and keeps its sign; a text value
matching the credits phrase yields its first number, otherwise the first
number anywhere is used, and with no digits the result is 0 — in
particular "3 credits" gives 3, "3-4 credits" gives 3, "3.5 credits"
gives 3, "" and None give 0, "see advisor" gives 0. -/
theorem parse_credits_amended :
    (∀ v : JVal, jIsNum v = false → 0 ≤ _parse_credits v)
    ∧ (∀ q : Rat, _parse_credits (.num q) = ratTrunc q)
    ∧ _parse_credits (.str "3 credits") = 3
    ∧ _parse_credits (.str "3-4 credits") = 3
    ∧ _parse_credits (.str "3.5 credits") = 3
    ∧ _parse_credits (.str "") = 0
    ∧ _parse_credits .null = 0
    ∧ _parse_credits (.str "see advisor") = 0 := by
  refine ⟨?_, fun q => rfl, by decide, by decide, by decide, by decide, rfl, by decide⟩
  intro v hv
  cases v with
  | null => decide
  | bool b => cases b <;> decide
  | num q => simp [jIsNum] at hv
  | str s => exact Int.ofNat_nonneg _
  | arr xs => exact Int.ofNat_nonneg _
  | obj kvs => exact Int.ofNat_nonneg _

/-- Witness for C5's amended statement on a digit-free text value. -/
theorem parse_credits_amended_witness :
    jIsNum (JVal.str "see advisor") = false ∧ 0 ≤ _parse_credits (.str "see advisor") :=
  ⟨rfl, parse_credits_amended.1 (.str "see advisor") rfl⟩

/-- C6: code and name resolution is total: a present (truthy) `code` field
is trimmed and uppercased; otherwise the first course-code pattern of the
title is used uppercased, with the trimmed uppercased title as fallback;
the name strips a leading code-plus-separator prefix from the title.  The
spec's concrete examples are evaluated. -/
theorem extract_code_name_spec :
    (∀ (s : String) (t : Option String), s ≠ "" →
        _extract_code (some s) t = pyUpper (pyStrip s))
    ∧ _extract_code (some "math 261") none = "MATH 261"
    ∧ _extract_code none (some "Csci 111: Computer Science I") = "CSCI 111"
    ∧ _extract_name (some "Csci 111: Computer Science I") = "Computer Science I"
    ∧ _extract_code none (some "Honors Math 261H rocks") = "MATH 261H"
    ∧ _extract_code none (some "Intro to Stuff") = "INTRO TO STUFF"
    ∧ _extract_code none none = ""
    ∧ _extract_name (some "MATH 261 - Calculus II") = "Calculus II"
    ∧ _extract_name none = "" := by
  refine ⟨?_, by decide, by decide, by decide, by decide, by decide, rfl, by decide, rfl⟩
  intro s t hs
  simp [_extract_code, hs]

/-- Witness for C6: an explicit code field is trimmed and uppercased. -/
theorem extract_code_name_spec_witness :
    _extract_code (some " math 261 ") none = pyUpper (pyStrip " math 261 ") :=
  extract_code_name_spec.1 " math 261 " none (by decide)

/-- A missing or unreadable file contributes nothing to the course
catalog. -/
theorem loadCourseFile_skip (f : SourceFile)
    (hf : f = SourceFile.missing ∨ f = SourceFile.unreadable)
    (acc : List (String × Course)) : loadCourseFile acc f = pure acc := by
  rcases hf with rfl | rfl <;> rfl

/-- The course-file loop over missing or unreadable files keeps the
accumulated catalog unchanged. -/
theorem foldlM_loadCourseFile_skip (fs : List SourceFile)
    (hfs : ∀ f ∈ fs, f = SourceFile.missing ∨ f = SourceFile.unreadable)
    (acc : List (String × Course)) :
    List.foldlM loadCourseFile acc fs = .ok acc := by
  induction fs generalizing acc with
  | nil => rfl
  | cons f fs ih =>
    rw [List.foldlM_cons, loadCourseFile_skip f (hfs f (List.mem_cons_self f fs)) acc]
    rw [pure_bind]
    exact ih (fun g hg => hfs g (List.mem_cons_of_mem f hg)) acc

/-- C7 counterexample: a course file whose JSON parses to the object
`{"a": 1}` makes `load_courses` raise `AttributeError` (iterating a dict
yields its keys, which are strings without a `.get` method) instead of
degrading to an empty mapping. -/
theorem load_courses_raises_cex :
    load_courses [SourceFile.parsed (.obj [("a", .num 1)])]
      = .error PyErr.attributeError := rfl

/-- C7 amended: `load_json` returns an empty collection for a missing or
unparsable file, and the two loaders degrade to empty mappings whenever
every source file is missing or unparsable; for well-formed JSON of an
unexpected shape, however, loading can raise rather than degrade. -/
theorem load_degrades_to_empty (files : List SourceFile)
    (hfs : ∀ f ∈ files, f = SourceFile.missing ∨ f = SourceFile.unreadable) :
    load_json .missing = .obj []
    ∧ load_json .unreadable = .obj []
    ∧ load_courses files = .ok []
    ∧ load_degree_requirements .missing = .ok []
    ∧ load_degree_requirements .unreadable = .ok [] :=
  ⟨rfl, rfl, foldlM_loadCourseFile_skip files hfs [], rfl, rfl⟩

/-- Witness for C7's amended statement on one missing and one unreadable
course file. -/
theorem load_degrades_to_empty_witness :
    load_courses [SourceFile.missing, SourceFile.unreadable] = .ok [] :=
  (load_degrades_to_empty [SourceFile.missing, SourceFile.unreadable] (by
    intro f hf
    rcases List.mem_cons.mp hf with rfl | hf2
    · exact Or.inl rfl
    · rcases List.mem_cons.mp hf2 with rfl | hf3
      · exact Or.inr rfl
      · cases hf3)).2.2.1

/-- No requirement is satisfied against an empty completed set. -/
theorem evalReq_nil (req : Requirement) : evalReq [] req = none := by
  have ho : optionsHit [] req = false := by
    unfold optionsHit
    cases req.options with
    | none => rfl
    | some os => simp [List.contains]
  have hn : nameHit [] req = false := rfl
  have hp : prefixMatches [] req = [] := by
    unfold prefixMatches
    cases req.allowed_prefixes <;> rfl
  simp [evalReq, ho, hn, hp]

/-- An empty catalog contributes no completed credits. -/
theorem catalogCredits_nil (completed : List String) :
    catalogCredits [] completed = 0 := by
  rw [catalogCredits_eq]
  have : completed.filterMap (fun code => (assocGet [] code).map Course.credits) = [] := by
    induction completed with
    | nil => rfl
    | cons a l ih => rw [List.filterMap_cons]; exact ih
  rw [this]
  rfl

/-- C8 counterexample: over an empty course catalog, a student who has
completed `CSCI 111` still satisfies a requirement named `CSCI 111` (the
matcher consults the completed set, not the catalog), so not every
requirement is marked missing even though `credits_done` is 0. -/
theorem audit_empty_catalog_cex :
    (audit_student { catalog_year := "2024-2025", courses_done := ["CSCI 111"] } []
        [("Core", { name := "Core", requirements := [{ name := "CSCI 111", credits := 3 }] })]
        []).credits_done = 0
    ∧ (audit_student { catalog_year := "2024-2025", courses_done := ["CSCI 111"] } []
        [("Core", { name := "Core", requirements := [{ name := "CSCI 111", credits := 3 }] })]
        []).blocks
      = [("Core", { completed := ["CSCI 111"], missing := []
                    credits_required := 3, credits_done := 3 })] :=
  ⟨rfl, rfl⟩

/-- C8 amended: missing catalog files load as empty collections without
raising; an audit over an empty course catalog reports top-level
`credits_done` 0, and every requirement of every block is marked missing
whenever the student's completed set is empty (requirement matching does
not consult the catalog, so completed courses can still satisfy
requirements over an empty catalog). -/
theorem audit_empty_catalog_amended :
    load_courses [SourceFile.missing, SourceFile.missing] = .ok []
    ∧ load_degree_requirements .missing = .ok []
    ∧ (∀ (profile : StudentProfile)
        (degree_blocks : List (String × RequirementBlock))
        (policies : List (String × JVal)),
        (audit_student profile [] degree_blocks policies).credits_done = 0)
    ∧ (∀ (profile : StudentProfile)
        (degree_blocks : List (String × RequirementBlock))
        (policies : List (String × JVal)),
        profile.courses_done = [] →
        (audit_student profile [] degree_blocks policies).blocks =
          degree_blocks.map (fun bb => (bb.1,
            { completed := [], missing := bb.2.requirements.map Requirement.name
              credits_required := sumCredits bb.2.requirements, credits_done := 0 }))) := by
  refine ⟨rfl, rfl, ?_, ?_⟩
  · intro profile degree_blocks policies
    exact catalogCredits_nil (normalizeDone profile)
  · intro profile degree_blocks policies hcd
    have hn : normalizeDone profile = [] := by
      unfold normalizeDone
      rw [hcd]
      rfl
    show degree_blocks.map (fun bb => (bb.1, auditBlock (normalizeDone profile) bb.2)) = _
    rw [hn]
    refine List.map_congr_left ?_
    intro bb _
    rw [auditBlock_eq]
    have hfm : bb.2.requirements.filterMap (evalReq []) = [] := by
      induction bb.2.requirements with
      | nil => rfl
      | cons r rs ih => rw [List.filterMap_cons, evalReq_nil]; exact ih
    have hno : (bb.2.requirements.filter (fun r => (evalReq [] r).isNone))
        = bb.2.requirements := by
      refine List.filter_eq_self.mpr ?_
      intro r _
      rw [evalReq_nil]
      rfl
    have hso : (bb.2.requirements.filter (fun r => (evalReq [] r).isSome)) = [] := by
      refine List.filter_eq_nil_iff.mpr ?_
      intro r _
      rw [evalReq_nil]
      simp
    rw [hfm, hno, hso]
    rfl

/-- Witness for C8's amended statement: with no completed courses every
requirement of a one-requirement block is missing. -/
theorem audit_empty_catalog_amended_witness :
    (audit_student { catalog_year := "2024-2025", courses_done := [] } []
        [("Core", { name := "Core", requirements := [{ name := "CSCI 487", credits := 3 }] })]
        []).blocks
      = [("Core", { completed := [], missing := ["CSCI 487"]
                    credits_required := 3, credits_done := 0 })] :=
  audit_empty_catalog_amended.2.2.2 { catalog_year := "2024-2025", courses_done := [] }
    [("Core", { name := "Core", requirements := [{ name := "CSCI 487", credits := 3 }] })]
    [] rfl

/-- The text path of prerequisite normalization never produces an empty
list: either some split pieces survive, or the original string is kept. -/
theorem normPrereqText_ne_nil (s : String) : normPrereqText s ≠ [] := by
  unfold normPrereqText
  cases hp : ((splitPrereqText s).map pyStrip).filter (fun p => p ≠ "") with
  | nil => simp [hp]
  | cons a l => simp [hp]

/-- C9 counterexample: the prerequisite field `[""]` is present (truthy),
yet normalization returns the empty list — a present prerequisite field
can be fully dropped on the list path. -/
theorem normalize_prereqs_dropped_cex :
    pyTruthy (JVal.arr [JVal.str ""]) = true
    ∧ _normalize_prereqs (JVal.arr [JVal.str ""]) = [] := ⟨rfl, rfl⟩

/-- C9 amended: a list input is stringified and trimmed with blank entries
dropped, and may therefore come out empty even when the raw field is
present; a text input is stripped and split at semicolons, periods,
", or", ", and" and plain commas in that precedence, and when the split
yields nothing usable the stripped original is kept as a single-element
list, so the result for a non-empty text input is never empty. -/
theorem normalize_prereqs_amended :
    (∀ s : String, s ≠ "" → _normalize_prereqs (.str s) ≠ [])
    ∧ (∀ xs : List JVal, _normalize_prereqs (.arr xs)
        = (xs.map fun x => pyStrip (pyStr x)).filter (fun e => e ≠ ""))
    ∧ _normalize_prereqs
        (.str "CSCI 251; MATH 301. CSCI 112, or CSCI 211, and MATH 263, MATH 264")
        = ["CSCI 251", "MATH 301", "CSCI 112", "CSCI 211", "MATH 263", "MATH 264"]
    ∧ _normalize_prereqs (.str "Consent of instructor") = ["Consent of instructor"]
    ∧ _normalize_prereqs .null = [] := by
  refine ⟨?_, ?_, by decide, by decide, rfl⟩
  · intro s hs
    have ht : pyTruthy (JVal.str s) = true := by simp [pyTruthy, hs]
    unfold _normalize_prereqs
    rw [ht]
    exact normPrereqText_ne_nil (pyStrip (pyStr (.str s)))
  · intro xs
    cases xs <;> rfl

/-- Witness for C9's amended statement on an unsplittable text value. -/
theorem normalize_prereqs_amended_witness :
    _normalize_prereqs (.str "Consent of instructor") ≠ [] :=
  normalize_prereqs_amended.1 "Consent of instructor" (by decide)

/-- C10: a course record whose resolved code is the empty string is
silently skipped — it contributes no catalog entry and loading continues
with the remaining records unchanged. -/
theorem load_course_skips_empty_code (fields : List (String × JVal))
    (rest : List JVal) (acc : List (String × Course))
    (h : dynCode (objGet fields "code") (titleField fields) = .ok "") :
    loadCourseItems (.obj fields :: rest) acc = loadCourseItems rest acc := by
  simp only [loadCourseItems, asObj, h]
  simp

/-- Witness for C10: a record whose title is only whitespace resolves to
an empty code and is skipped. -/
theorem load_course_skips_empty_code_witness :
    dynCode (objGet [("title", JVal.str " ")] "code")
      (titleField [("title", JVal.str " ")]) = .ok ""
    ∧ loadCourseItems [.obj [("title", .str " ")]] [] = loadCourseItems [] [] :=
  ⟨rfl, load_course_skips_empty_code [("title", .str " ")] [] [] rfl⟩

end Advisor
